import Mathlib

/-!
Shallow embedding of the settlement engine of the BeeCoin backend
(`src/services/cronService.ts`, current revision: the variant with
`marketOffDays` support), together with the profit-rule model
(`src/models/ProfitRule.ts`) and the rule-creation route
(`dist/routes/profitRules.js`).

Currency amounts and JS numbers are modelled as rationals (`ℚ`);
rule identifiers (Mongo ObjectIds) as naturals; timestamps (`Date`)
as naturals.  `Number(x.toFixed(2))` is modelled as exact rational
rounding to two decimals with ties going up, which agrees with the
IEEE behaviour on every non-tie input.
-/

/-- Transaction `type` field: `'credit' | 'debit' | 'system'`. -/
inductive TxKind where
  | credit
  | debit
  | system
deriving DecidableEq, Repr

/-- Ledger entry pushed onto `user.transactions`
(`amount`, `type`, `description`, optional `ruleId`, `createdAt`). -/
structure Transaction where
  amount : ℚ
  kind : TxKind
  description : String
  ruleId : Option ℕ
  createdAt : ℕ
deriving DecidableEq, Repr

/-- The fields of a `User` document touched by the settlement engine:
`balance`, `aiStatus` (participation flag), the rolling profit stats
`algoProfitAmount` / `algoProfitPercentage` / `lastProfitCalculation`,
and the `transactions` ledger. -/
structure User where
  id : ℕ
  balance : ℚ
  aiStatus : Bool
  algoProfitAmount : ℚ
  algoProfitPercentage : ℚ
  lastProfitCalculation : Option ℕ
  transactions : List Transaction
deriving DecidableEq, Repr

/-- A `ProfitRule` document: `minBalance`, `maxBalance`, `profit`,
`isActive` (plus its Mongo `_id`). -/
structure ProfitRule where
  id : ℕ
  minBalance : ℚ
  maxBalance : ℚ
  profit : ℚ
  isActive : Bool
deriving DecidableEq, Repr

/-- The Mongo query filter of `calculateProfit`:
`minBalance ≤ balance ∧ balance ≤ maxBalance ∧ isActive`. -/
def ruleMatches (balance : ℚ) (r : ProfitRule) : Bool :=
  r.isActive && decide (r.minBalance ≤ balance) && decide (balance ≤ r.maxBalance)

/-- Accumulator step for taking the first document in
`.sort({minBalance: 1})` order: keeps the candidate with the
strictly smallest `minBalance`, the earlier one on ties. -/
def pickMinRule : Option ProfitRule → ProfitRule → Option ProfitRule
  | none, r => some r
  | some best, r => if r.minBalance < best.minBalance then some r else some best

/-- `ProfitRule.findOne({minBalance:{$lte:b}, maxBalance:{$gte:b}, isActive:true}).sort({minBalance:1})`:
the matching rule with the least `minBalance`, if any. -/
def findMatchingRule (balance : ℚ) (rules : List ProfitRule) : Option ProfitRule :=
  (rules.filter (ruleMatches balance)).foldl pickMinRule none

/-- Outcome of the rule-table round trip inside `calculateProfit`:
either the store answers with the rule list, or the query throws. -/
inductive LookupResult where
  | ok : List ProfitRule → LookupResult
  | storeError : LookupResult
deriving DecidableEq, Repr

/-- `calculateProfit(balance)`: returns `{profit, ruleId}` from the
lowest-`minBalance` matching active rule, `{profit: 0}` when no rule
matches, and — via the `catch` — `{profit: 0}` when the store errors. -/
def calculateProfit (lookup : LookupResult) (balance : ℚ) : ℚ × Option ℕ :=
  match lookup with
  | .storeError => (0, none)
  | .ok rules =>
    match findMatchingRule balance rules with
    | some r => (r.profit, some r.id)
    | none => (0, none)

/-- `Number(x.toFixed(2))`: rounding to two decimal places, nearest,
ties towards `+∞` (ECMA picks the larger candidate on a tie). -/
def roundTo2 (q : ℚ) : ℚ :=
  ((Rat.floor (q * 100 + 1 / 2) : ℤ) : ℚ) / 100

theorem ratFloor_eq_intFloor (q : ℚ) : (Rat.floor q : ℤ) = ⌊q⌋ := rfl

/-- `calculateProfitPercentage(profitAmount, previousBalance)`:
`±100`/`0` when the previous balance is zero, otherwise
`(profitAmount / previousBalance) * 100` to two decimals. -/
def calculateProfitPercentage (profitAmount previousBalance : ℚ) : ℚ :=
  if previousBalance = 0 then
    if 0 < profitAmount then 100 else if profitAmount < 0 then -100 else 0
  else
    roundTo2 (profitAmount / previousBalance * 100)

theorem percentage_at_200 : calculateProfitPercentage 10 200 = 5 := by
  norm_num [calculateProfitPercentage, roundTo2, Rat.floor_def']

theorem percentage_at_150 : calculateProfitPercentage 10 150 = 667 / 100 := by
  norm_num [calculateProfitPercentage, roundTo2, Rat.floor_def']

/-- Description strings used by the settlement branch. -/
def profitDescription (profit : ℚ) : String :=
  if 0 < profit then "Daily AI trading profit" else "Daily AI trading loss"

/-- The per-user body of `updateActiveUsersBalance` (current revision)
after `calculateProfit` has answered, i.e. the code between capturing
`previousBalance` and the `findByIdAndUpdate` call.  Returns the
updated user document, whether the user is counted in `usersUpdated`,
and the delta added to `totalProfitDistributed`.

Nonzero profit: `balance += profit`, `algoProfitAmount` accumulates
(`current + profit`), `algoProfitPercentage` becomes
`((current * (totalProfitEvents - 1)) + profitPercentage) / totalProfitEvents`
with `totalProfitEvents = (user.lastProfitCalculation ? 1 : 0) + 1`,
one ledger entry `{abs(profit), credit|debit, description, ruleId}` is
pushed.  Zero profit: only `lastProfitCalculation` is set. -/
def settleStep (lookup : LookupResult) (now : ℕ) (u : User) : User × Bool × ℚ :=
  let previousBalance := u.balance
  let pr := calculateProfit lookup previousBalance
  let profit := pr.1
  let ruleId := pr.2
  if profit ≠ 0 then
    let profitPercentage := calculateProfitPercentage profit previousBalance
    let currentAlgoProfitAmount := u.algoProfitAmount
    let currentAlgoProfitPercentage := u.algoProfitPercentage
    let newAlgoProfitAmount := currentAlgoProfitAmount + profit
    let totalProfitEvents : ℚ := (if u.lastProfitCalculation.isSome then 1 else 0) + 1
    let newAlgoProfitPercentage :=
      ((currentAlgoProfitPercentage * (totalProfitEvents - 1)) + profitPercentage) / totalProfitEvents
    let transactionData : Transaction :=
      { amount := |profit|
        kind := if 0 < profit then TxKind.credit else TxKind.debit
        description := profitDescription profit
        ruleId := ruleId
        createdAt := now }
    ({ u with
        balance := u.balance + profit
        algoProfitAmount := newAlgoProfitAmount
        algoProfitPercentage := newAlgoProfitPercentage
        lastProfitCalculation := some now
        transactions := u.transactions ++ [transactionData] },
     true, profit)
  else
    ({ u with lastProfitCalculation := some now }, false, 0)

/-- One settlement cycle (`updateActiveUsersBalance`, current revision),
with failure injection: `failing` is the set of user ids whose
`findByIdAndUpdate` throws; the surrounding `try`/`catch` logs and
skips those users, leaving their documents untouched.  Only users with
`aiStatus = true` are fetched and processed.  Returns the updated
store, `usersUpdated`, and `totalProfitDistributed`. -/
def updateActiveUsersBalance (lookup : LookupResult) (now : ℕ) (failing : List ℕ) :
    List User → List User × ℕ × ℚ
  | [] => ([], 0, 0)
  | u :: rest =>
    let tail := updateActiveUsersBalance lookup now failing rest
    if u.aiStatus then
      if u.id ∈ failing then
        (u :: tail.1, tail.2.1, tail.2.2)
      else
        let s := settleStep lookup now u
        (s.1 :: tail.1, (if s.2.1 then 1 else 0) + tail.2.1, s.2.2 + tail.2.2)
    else
      (u :: tail.1, tail.2.1, tail.2.2)

/-- The uniform ledger marker appended by `deactivateAllAIStatus`. -/
def deactivationTxn (now : ℕ) : Transaction :=
  { amount := 0
    kind := TxKind.system
    description := "AI auto-deactivated after daily balance update"
    ruleId := none
    createdAt := now }

/-- `deactivateAllAIStatus` (current revision): if no user has
`aiStatus = true` the method returns early; otherwise one
`updateMany({aiStatus:true}, {$set:{aiStatus:false}, $push:{transactions: marker}})`
clears the flag and appends the marker for every matching user, and
`modifiedCount` is the number of matching users. -/
def deactivateAllAIStatus (now : ℕ) (users : List User) : List User × ℕ :=
  let activeUsers := users.filter (fun u => u.aiStatus)
  if activeUsers.length = 0 then
    (users, 0)
  else
    (users.map (fun u =>
        if u.aiStatus then
          { u with aiStatus := false, transactions := u.transactions ++ [deactivationTxn now] }
        else u),
     activeUsers.length)

/-- `formatTime(hours, minutes)`: the numeric content of the displayed
`HH:mm` string (`totalMinutes = hours*60 + minutes`;
`(⌊totalMinutes/60⌋ % 24, totalMinutes % 60)`). -/
def formatTime (hours minutes : ℕ) : ℕ × ℕ :=
  let totalMinutes := hours * 60 + minutes
  (totalMinutes / 60 % 24, totalMinutes % 60)

/-- The `(finalHours, finalMinutes)` fed to the cron expression in
`scheduleDeactivationJob`: one minute after the balance-update time,
with minute and hour rollover. -/
def deactivationTime (hours minutes : ℕ) : ℕ × ℕ :=
  let deactivationMinutes := minutes + 1
  let deactivationHours := if 60 ≤ deactivationMinutes then hours + 1 else hours
  (deactivationHours % 24, deactivationMinutes % 60)

/-- Numeric value of an ASCII digit character. -/
def charVal (c : Char) : ℕ := c.toNat - 48

/-- `48 + lo ≤ c ≤ 48 + hi`, i.e. `c` is a digit in `[lo, hi]`. -/
def isDigitBetween (c : Char) (lo hi : ℕ) : Bool :=
  decide (48 + lo ≤ c.toNat) && decide (c.toNat ≤ 48 + hi)

/-- The time-format check `/^([0-1]?[0-9]|2[0-3]):[0-5][0-9]$/` of
`updateCronSchedule`, on the string's character list: either
`d:mm` with `d ∈ [0,9]`, or `dd:mm` with the hour `00`–`19` or
`20`–`23`; minutes `[0-5][0-9]`. -/
def validTimeFormat : List Char → Bool
  | [h1, c, m1, m2] =>
    isDigitBetween h1 0 9 && (c == ':') && isDigitBetween m1 0 5 && isDigitBetween m2 0 9
  | [h1, h2, c, m1, m2] =>
    (isDigitBetween h1 0 1 && isDigitBetween h2 0 9 || (h1 == '2') && isDigitBetween h2 0 3) &&
      (c == ':') && isDigitBetween m1 0 5 && isDigitBetween m2 0 9
  | _ => false

/-- `time.split(':').map(Number)` on a string accepted by the format
check: the `(hours, minutes)` pair. -/
def parseTime : List Char → ℕ × ℕ
  | [h1, _, m1, m2] => (charVal h1, charVal m1 * 10 + charVal m2)
  | [h1, h2, _, m1, m2] => (charVal h1 * 10 + charVal h2, charVal m1 * 10 + charVal m2)
  | _ => (0, 0)

/-- The persisted `Settings` document fields used by the scheduler. -/
structure Settings where
  cronScheduleTime : List Char
  timeZone : String
  marketOffDays : List ℚ
deriving DecidableEq, Repr

/-- The scheduler-relevant state of the `CronService` singleton plus
the persisted settings: the armed cron times of the two jobs and the
in-memory `timeZone` / `marketOffDays` copies. -/
structure CronState where
  settings : Settings
  armedSettlement : ℕ × ℕ
  armedDeactivation : ℕ × ℕ
  timeZone : String
  marketOffDays : List ℚ
deriving DecidableEq, Repr

/-- The market-off-days guard of `updateCronSchedule`:
`marketOffDays.filter(day => day < 0 || day > 6).length > 0` when the
argument is provided, never triggered when it is absent.  Note the
guard only range-checks the entries; it does not test integrality. -/
def invalidDaysCheck : Option (List ℚ) → Bool
  | some days => !(days.filter (fun d => decide (d < 0) || decide (6 < d))).isEmpty
  | none => false

/-- `updateCronSchedule(time, timeZone, userId, marketOffDays?)`
(current revision).  Validation: the time must match the `HH:mm`
regex; provided `marketOffDays` entries failing the range guard cause
a thrown error.  A throw is caught and surfaced as `{success: false}`
with nothing mutated.  On success the settings document is updated
(keeping the old `marketOffDays` when none are provided), the
in-memory copies are refreshed, and both jobs are rescheduled from
the parsed time. -/
def updateCronSchedule (st : CronState) (time : List Char) (timeZone : String)
    (marketOffDays : Option (List ℚ)) : CronState × Bool :=
  if validTimeFormat time = false then
    (st, false)
  else if invalidDaysCheck marketOffDays then
    (st, false)
  else
    let newDays := marketOffDays.getD st.settings.marketOffDays
    let hm := parseTime time
    ({ settings := { cronScheduleTime := time, timeZone := timeZone, marketOffDays := newDays }
       armedSettlement := (hm.1, hm.2)
       armedDeactivation := deactivationTime hm.1 hm.2
       timeZone := timeZone
       marketOffDays := newDays },
     true)

/-- Outcome of the `POST /` profit-rule route. -/
inductive CreateResult where
  | created
  | badRequest
  | duplicateRange
deriving DecidableEq, Repr

/-- `router.post('/')` of `dist/routes/profitRules.js` together with
the `ProfitRuleSchema` unique index on `(minBalance, maxBalance)`:
rejects `minBalance >= maxBalance` with a 400; a save that collides
with an existing rule's *exact* `(minBalance, maxBalance)` pair raises
the duplicate-key error 11000 (surfaced as a 400 conflict message);
otherwise the rule is inserted with `isActive` defaulting to true. -/
def createRule (table : List ProfitRule) (newId : ℕ) (minBalance maxBalance profit : ℚ)
    (isActive : Bool) : List ProfitRule × CreateResult :=
  if maxBalance ≤ minBalance then
    (table, CreateResult.badRequest)
  else if table.any (fun r => decide (r.minBalance = minBalance) && decide (r.maxBalance = maxBalance)) then
    (table, CreateResult.duplicateRange)
  else
    (table ++ [{ id := newId, minBalance := minBalance, maxBalance := maxBalance,
                 profit := profit, isActive := isActive }],
     CreateResult.created)

/-! ## Helper lemmas -/

theorem ruleMatches_iff {b : ℚ} {r : ProfitRule} :
    ruleMatches b r = true ↔ r.isActive = true ∧ r.minBalance ≤ b ∧ b ≤ r.maxBalance := by
  simp [ruleMatches, and_assoc]

theorem pickMinRule_some (a r : ProfitRule) :
    pickMinRule (some a) r = some (if r.minBalance < a.minBalance then r else a) := by
  by_cases h : r.minBalance < a.minBalance <;> simp [pickMinRule, h]

theorem foldl_pickMinRule_spec (l : List ProfitRule) :
    ∀ a r, l.foldl pickMinRule (some a) = some r →
      (r = a ∨ r ∈ l) ∧ r.minBalance ≤ a.minBalance ∧ ∀ x ∈ l, r.minBalance ≤ x.minBalance := by
  induction l with
  | nil =>
    intro a r h
    simp only [List.foldl_nil, Option.some.injEq] at h
    subst h
    exact ⟨Or.inl rfl, le_rfl, by simp⟩
  | cons x xs ih =>
    intro a r h
    rw [List.foldl_cons, pickMinRule_some] at h
    by_cases hx : x.minBalance < a.minBalance
    · rw [if_pos hx] at h
      obtain ⟨hmem, hle, hall⟩ := ih x r h
      refine ⟨?_, hle.trans hx.le, ?_⟩
      · rcases hmem with h1 | h1
        · exact Or.inr (by simp [h1])
        · exact Or.inr (List.mem_cons_of_mem _ h1)
      · intro y hy
        rcases List.mem_cons.mp hy with rfl | hy
        · exact hle
        · exact hall y hy
    · rw [if_neg hx] at h
      obtain ⟨hmem, hle, hall⟩ := ih a r h
      push_neg at hx
      refine ⟨?_, hle, ?_⟩
      · rcases hmem with h1 | h1
        · exact Or.inl h1
        · exact Or.inr (List.mem_cons_of_mem _ h1)
      · intro y hy
        rcases List.mem_cons.mp hy with rfl | hy
        · exact hle.trans hx
        · exact hall y hy

theorem foldl_pickMinRule_isSome (l : List ProfitRule) :
    ∀ a, ∃ r, l.foldl pickMinRule (some a) = some r := by
  induction l with
  | nil => intro a; exact ⟨a, rfl⟩
  | cons x xs ih =>
    intro a
    rw [List.foldl_cons, pickMinRule_some]
    exact ih _

theorem findMatchingRule_none {b : ℚ} {rules : List ProfitRule}
    (h : ∀ r ∈ rules, ruleMatches b r = false) : findMatchingRule b rules = none := by
  unfold findMatchingRule
  have hfil : rules.filter (ruleMatches b) = [] := by
    rw [List.filter_eq_nil_iff]
    intro a ha
    simp [h a ha]
  rw [hfil]
  rfl

theorem calculateProfit_ok (rules : List ProfitRule) (b : ℚ) :
    calculateProfit (LookupResult.ok rules) b =
      (match findMatchingRule b rules with
       | some r => (r.profit, some r.id)
       | none => (0, none)) := rfl

theorem settleStep_zeroProfit (lookup : LookupResult) (now : ℕ) (u : User)
    (h : (calculateProfit lookup u.balance).1 = 0) :
    settleStep lookup now u = ({ u with lastProfitCalculation := some now }, false, 0) := by
  unfold settleStep
  simp [h]

theorem findMatchingRule_some {b : ℚ} {rules : List ProfitRule} {r : ProfitRule}
    (h : findMatchingRule b rules = some r) :
    r ∈ rules ∧ ruleMatches b r = true ∧
      ∀ x ∈ rules, ruleMatches b x = true → r.minBalance ≤ x.minBalance := by
  unfold findMatchingRule at h
  cases hfil : rules.filter (ruleMatches b) with
  | nil =>
    rw [hfil] at h
    simp at h
  | cons y ys =>
    rw [hfil, List.foldl_cons] at h
    have hspec := foldl_pickMinRule_spec ys y r (by simpa [pickMinRule] using h)
    obtain ⟨hmem, hley, hall⟩ := hspec
    have hrfil : r ∈ rules.filter (ruleMatches b) := by
      rw [hfil]
      rcases hmem with rfl | hm
      · exact List.mem_cons_self _ _
      · exact List.mem_cons_of_mem _ hm
    have hr := List.mem_filter.mp hrfil
    refine ⟨hr.1, hr.2, ?_⟩
    intro x hx hmx
    have hxfil : x ∈ rules.filter (ruleMatches b) := List.mem_filter.mpr ⟨hx, hmx⟩
    rw [hfil] at hxfil
    rcases List.mem_cons.mp hxfil with rfl | hxy
    · exact hley
    · exact hall x hxy

theorem findMatchingRule_isSome {b : ℚ} {rules : List ProfitRule} {r0 : ProfitRule}
    (h0 : r0 ∈ rules) (hm : ruleMatches b r0 = true) :
    ∃ r, findMatchingRule b rules = some r := by
  unfold findMatchingRule
  cases hfil : rules.filter (ruleMatches b) with
  | nil =>
    exfalso
    have : r0 ∈ rules.filter (ruleMatches b) := List.mem_filter.mpr ⟨h0, hm⟩
    rw [hfil] at this
    simp at this
  | cons y ys =>
    rw [List.foldl_cons]
    have : pickMinRule none y = some y := rfl
    rw [this]
    exact foldl_pickMinRule_isSome ys y

/-! ## Claims -/

/-- C5: rule resolution is deterministic (it is a pure function of the
rule list and the balance); when no active rule's range contains the
balance the result is `(0, none)` — a non-error outcome; when at least
one active rule matches, the result names a matching active rule whose
`minBalance` is least among all matching rules, and pays its profit. -/
theorem claim_c5 (b : ℚ) (rules : List ProfitRule) :
    ((∀ r ∈ rules, ruleMatches b r = false) →
        calculateProfit (LookupResult.ok rules) b = (0, none))
    ∧ (∀ r0, r0 ∈ rules → ruleMatches b r0 = true →
        ∃ r, r ∈ rules ∧ r.isActive = true ∧ r.minBalance ≤ b ∧ b ≤ r.maxBalance
          ∧ calculateProfit (LookupResult.ok rules) b = (r.profit, some r.id)
          ∧ ∀ x ∈ rules, ruleMatches b x = true → r.minBalance ≤ x.minBalance) := by
  constructor
  · intro h
    rw [calculateProfit_ok, findMatchingRule_none h]
  · intro r0 h0 hm
    obtain ⟨r, hr⟩ := findMatchingRule_isSome h0 hm
    obtain ⟨hmem, hmatch, hmin⟩ := findMatchingRule_some hr
    obtain ⟨hact, hlo, hhi⟩ := ruleMatches_iff.mp hmatch
    refine ⟨r, hmem, hact, hlo, hhi, ?_, hmin⟩
    rw [calculateProfit_ok, hr]

/-- Concrete rule table for the C5 witness. -/
def c5DemoRules : List ProfitRule :=
  [{ id := 1, minBalance := 0, maxBalance := 100, profit := 2, isActive := true },
   { id := 2, minBalance := 101, maxBalance := 200, profit := 10, isActive := true }]

/-- Witness for C5: no rule of the demo table matches balance 999, so
resolution returns profit 0 with no rule reference. -/
theorem claim_c5_witness : calculateProfit (LookupResult.ok c5DemoRules) 999 = (0, none) :=
  (claim_c5 999 c5DemoRules).1 (by decide)

theorem settleStep_nonzeroProfit (lookup : LookupResult) (now : ℕ) (u : User)
    (p : ℚ) (oid : Option ℕ)
    (hc : calculateProfit lookup u.balance = (p, oid)) (hp : p ≠ 0) :
    settleStep lookup now u =
      ({ u with
          balance := u.balance + p
          algoProfitAmount := u.algoProfitAmount + p
          algoProfitPercentage :=
            ((u.algoProfitPercentage *
                (((if u.lastProfitCalculation.isSome then (1 : ℚ) else 0) + 1) - 1))
              + calculateProfitPercentage p u.balance) /
              ((if u.lastProfitCalculation.isSome then (1 : ℚ) else 0) + 1)
          lastProfitCalculation := some now
          transactions := u.transactions ++
            [{ amount := |p|
               kind := if 0 < p then TxKind.credit else TxKind.debit
               description := profitDescription p
               ruleId := oid
               createdAt := now }] },
       true, p) := by
  unfold settleStep
  simp [hc, hp]

/-- Rule table for the C1 counterexample: a single active rule whose
range does not contain the demo user's balance. -/
def c1DemoRules : List ProfitRule :=
  [{ id := 3, minBalance := 100, maxBalance := 200, profit := 10, isActive := true }]

/-- Account for the C1 counterexample, with nonzero profit stats left
over from an earlier settlement. -/
def c1DemoUser : User :=
  { id := 9, balance := 50, aiStatus := true, algoProfitAmount := 7,
    algoProfitPercentage := 3, lastProfitCalculation := some 5, transactions := [] }

/-- Counterexample to C1 as stated: the demo user's balance matches no
active rule (resolution yields profit 0 with no rule), yet after the
settlement step `algoProfitAmount`/`algoProfitPercentage` keep their
old values 7 and 3 instead of being reset to 0. -/
theorem claim_c1_cex :
    calculateProfit (LookupResult.ok c1DemoRules) c1DemoUser.balance = (0, none)
    ∧ (settleStep (LookupResult.ok c1DemoRules) 42 c1DemoUser).1.algoProfitAmount = 7
    ∧ (settleStep (LookupResult.ok c1DemoRules) 42 c1DemoUser).1.algoProfitPercentage = 3
    ∧ (settleStep (LookupResult.ok c1DemoRules) 42 c1DemoUser).1.algoProfitAmount ≠ 0 := by
  refine ⟨by decide, ?_, ?_, ?_⟩ <;>
    rw [settleStep_zeroProfit (LookupResult.ok c1DemoRules) 42 c1DemoUser (by decide)] <;>
    decide

/-- C1 (amended): a participating account whose previous balance
resolves to profit 0 gets only `lastProfitCalculation` set to now;
`algoProfitAmount` and `algoProfitPercentage` keep their previous
values, no ledger entry is appended, the balance is unchanged, and
the account is not counted in `usersUpdated`. -/
theorem claim_c1 (lookup : LookupResult) (now : ℕ) (u : User)
    (h : (calculateProfit lookup u.balance).1 = 0) :
    settleStep lookup now u = ({ u with lastProfitCalculation := some now }, false, 0) :=
  settleStep_zeroProfit lookup now u h

/-- Witness for C1 (amended) at the concrete demo account. -/
theorem claim_c1_witness :
    settleStep (LookupResult.ok c1DemoRules) 42 c1DemoUser =
      ({ c1DemoUser with lastProfitCalculation := some 42 }, false, 0) :=
  claim_c1 (LookupResult.ok c1DemoRules) 42 c1DemoUser (by decide)

/-- Rule table for C2: the active rule `{min:100, max:200, profit:10}`
of the spec's conservation example. -/
def c2DemoRules : List ProfitRule :=
  [{ id := 1, minBalance := 100, maxBalance := 200, profit := 10, isActive := true }]

/-- Account for the C2 counterexample: previous balance 150 as in the
spec's example, but with a leftover `algoProfitAmount` of 5. -/
def c2DemoUser : User :=
  { id := 4, balance := 150, aiStatus := true, algoProfitAmount := 5,
    algoProfitPercentage := 0, lastProfitCalculation := none, transactions := [] }

/-- Fresh account (all stats zero, no prior computation) for the C2
witness: on it the spec's conservation example numbers do hold. -/
def c2FreshUser : User :=
  { id := 6, balance := 150, aiStatus := true, algoProfitAmount := 0,
    algoProfitPercentage := 0, lastProfitCalculation := none, transactions := [] }

/-- Counterexample to C2 as stated: with previous balance 150 and the
active rule `{min:100, max:200, profit:10}`, the balance does become
160, but when the account's `algoProfitAmount` was 5 before the cycle
the field becomes 15, not the overwrite 10 the claim requires
"regardless of the account's profitStats values before the cycle". -/
theorem claim_c2_cex :
    calculateProfit (LookupResult.ok c2DemoRules) c2DemoUser.balance = (10, some 1)
    ∧ (settleStep (LookupResult.ok c2DemoRules) 42 c2DemoUser).1.balance = 160
    ∧ (settleStep (LookupResult.ok c2DemoRules) 42 c2DemoUser).1.algoProfitAmount = 15
    ∧ (settleStep (LookupResult.ok c2DemoRules) 42 c2DemoUser).1.algoProfitAmount ≠ 10 := by
  have hstep := settleStep_nonzeroProfit (LookupResult.ok c2DemoRules) 42 c2DemoUser
    10 (some 1) (by decide) (by norm_num)
  refine ⟨by decide, ?_, ?_, ?_⟩ <;> rw [hstep] <;> norm_num [c2DemoUser]

/-- C2 (amended): for a participating account whose previous balance
resolves to a rule with nonzero profit `p`, one settlement step sets
`balance` to `previousBalance + p`, appends exactly one ledger entry
with kind credit if `p > 0` else debit, amount `|p|` and the rule's
id, and sets the profit stats to `lastProfitCalculation = now`,
`algoProfitAmount = previous amount + p` (accumulated, not
overwritten) and `algoProfitPercentage = ((previous percentage *
(n - 1)) + thisCyclePercentage) / n` with `n = 2` when a previous
computation timestamp exists and `n = 1` otherwise; the account is
counted in `usersUpdated` and contributes `p` to the total. -/
theorem claim_c2 (lookup : LookupResult) (now : ℕ) (u : User) (p : ℚ) (oid : Option ℕ)
    (hc : calculateProfit lookup u.balance = (p, oid)) (hp : p ≠ 0) :
    settleStep lookup now u =
      ({ u with
          balance := u.balance + p
          algoProfitAmount := u.algoProfitAmount + p
          algoProfitPercentage :=
            ((u.algoProfitPercentage *
                (((if u.lastProfitCalculation.isSome then (1 : ℚ) else 0) + 1) - 1))
              + calculateProfitPercentage p u.balance) /
              ((if u.lastProfitCalculation.isSome then (1 : ℚ) else 0) + 1)
          lastProfitCalculation := some now
          transactions := u.transactions ++
            [{ amount := |p|
               kind := if 0 < p then TxKind.credit else TxKind.debit
               description := profitDescription p
               ruleId := oid
               createdAt := now }] },
       true, p) :=
  settleStep_nonzeroProfit lookup now u p oid hc hp

/-- Witness for C2 (amended) at the spec's conservation example on a
fresh account: balance 150 → 160, one credit entry of amount 10
referencing rule 1, percentage `6.67`. -/
theorem claim_c2_witness :
    settleStep (LookupResult.ok c2DemoRules) 42 c2FreshUser =
      ({ c2FreshUser with
          balance := c2FreshUser.balance + 10
          algoProfitAmount := c2FreshUser.algoProfitAmount + 10
          algoProfitPercentage :=
            ((c2FreshUser.algoProfitPercentage *
                (((if c2FreshUser.lastProfitCalculation.isSome then (1 : ℚ) else 0) + 1) - 1))
              + calculateProfitPercentage 10 c2FreshUser.balance) /
              ((if c2FreshUser.lastProfitCalculation.isSome then (1 : ℚ) else 0) + 1)
          lastProfitCalculation := some 42
          transactions := c2FreshUser.transactions ++
            [{ amount := |(10 : ℚ)|
               kind := if (0 : ℚ) < 10 then TxKind.credit else TxKind.debit
               description := profitDescription 10
               ruleId := some 1
               createdAt := 42 }] },
       true, 10) :=
  claim_c2 (LookupResult.ok c2DemoRules) 42 c2FreshUser 10 (some 1) (by decide) (by norm_num)

/-- Concrete user for the C10 witness. -/
def c10DemoUser : User :=
  { id := 11, balance := 80, aiStatus := true, algoProfitAmount := 4,
    algoProfitPercentage := 2, lastProfitCalculation := none, transactions := [] }

/-- C10: when the rule lookup throws, `calculateProfit` answers
`{profit: 0}` with no rule id — the same answer as "no active rule
matches" — and the per-user settlement step treats the user as a
zero-profit settlement: only `lastProfitCalculation` is set, no
ledger entry is appended, the balance is untouched, and the user is
neither counted in `usersUpdated` nor recorded as a failure. -/
theorem claim_c10 (b : ℚ) (now : ℕ) (u : User) (rules : List ProfitRule) :
    calculateProfit LookupResult.storeError b = (0, none)
    ∧ settleStep LookupResult.storeError now u =
        ({ u with lastProfitCalculation := some now }, false, 0)
    ∧ ((∀ r ∈ rules, ruleMatches u.balance r = false) →
        settleStep LookupResult.storeError now u = settleStep (LookupResult.ok rules) now u) := by
  refine ⟨rfl, settleStep_zeroProfit LookupResult.storeError now u rfl, ?_⟩
  intro h
  have hcalc : calculateProfit (LookupResult.ok rules) u.balance = (0, none) := by
    rw [calculateProfit_ok, findMatchingRule_none h]
  rw [settleStep_zeroProfit LookupResult.storeError now u rfl,
    settleStep_zeroProfit (LookupResult.ok rules) now u (by rw [hcalc])]

/-- Witness for C10: with an empty rule table the store-error outcome
and the ok outcome coincide. -/
theorem claim_c10_witness :
    settleStep LookupResult.storeError 7 c10DemoUser =
      settleStep (LookupResult.ok []) 7 c10DemoUser :=
  (claim_c10 0 7 c10DemoUser []).2.2 (by simp)

/-- C7: `calculateProfitPercentage` returns `100` / `-100` / `0` on a
zero previous balance according to the sign of the profit; on a
nonzero previous balance it returns `(profit / previousBalance) * 100`
rounded to two decimal places (the result is an integer number of
hundredths within `1/200` of the exact ratio), and in particular
`5.00` for `previousBalance = 200`, `profit = 10`. -/
theorem claim_c7 (p b : ℚ) :
    (b = 0 → 0 < p → calculateProfitPercentage p b = 100)
    ∧ (b = 0 → p < 0 → calculateProfitPercentage p b = -100)
    ∧ (b = 0 → p = 0 → calculateProfitPercentage p b = 0)
    ∧ (b ≠ 0 →
        (∃ n : ℤ, calculateProfitPercentage p b = (n : ℚ) / 100)
        ∧ |calculateProfitPercentage p b - p / b * 100| ≤ 1 / 200)
    ∧ calculateProfitPercentage 10 200 = 5 := by
  refine ⟨?_, ?_, ?_, ?_, ?_⟩
  · intro hb hp
    simp [calculateProfitPercentage, hb, hp]
  · intro hb hp
    have hnp : ¬ (0 < p) := by linarith
    simp [calculateProfitPercentage, hb, hnp, hp]
  · intro hb hp
    simp [calculateProfitPercentage, hb, hp]
  · intro hb
    have hcpp : calculateProfitPercentage p b =
        ((⌊p / b * 100 * 100 + 1 / 2⌋ : ℤ) : ℚ) / 100 := by
      simp [calculateProfitPercentage, hb, roundTo2, ratFloor_eq_intFloor]
    refine ⟨⟨_, hcpp⟩, ?_⟩
    rw [hcpp]
    have h1 : ((⌊p / b * 100 * 100 + 1 / 2⌋ : ℤ) : ℚ) ≤ p / b * 100 * 100 + 1 / 2 :=
      Int.floor_le _
    have h2 : p / b * 100 * 100 + 1 / 2 < ((⌊p / b * 100 * 100 + 1 / 2⌋ : ℤ) : ℚ) + 1 :=
      Int.lt_floor_add_one _
    rw [abs_le]
    constructor <;> linarith
  · norm_num [calculateProfitPercentage, roundTo2, Rat.floor_def']

/-- Witness for C7 at the zero-balance boundary inputs. -/
theorem claim_c7_witness :
    calculateProfitPercentage 7 0 = 100
    ∧ calculateProfitPercentage (-7) 0 = -100
    ∧ calculateProfitPercentage 0 0 = 0 :=
  ⟨(claim_c7 7 0).1 rfl (by norm_num),
   (claim_c7 (-7) 0).2.1 rfl (by norm_num),
   (claim_c7 0 0).2.2.1 rfl rfl⟩

theorem deactivationTime_def (h m : ℕ) :
    deactivationTime h m = ((if 60 ≤ m + 1 then h + 1 else h) % 24, (m + 1) % 60) := rfl

theorem formatTime_def (h m : ℕ) :
    formatTime h m = ((h * 60 + m) / 60 % 24, (h * 60 + m) % 60) := rfl

/-- C8: for every valid settlement time `h:m` (hours `< 24`, minutes
`< 60`) the deactivation job's armed time is the settlement time plus
exactly one minute modulo the day, its components are in range, and it
agrees with the displayed `formatTime(hours, minutes + 1)`; in
particular `23:59` rolls over to `00:00`. -/
theorem claim_c8 (h m : ℕ) (_hh : h < 24) (hm : m < 60) :
    (deactivationTime h m).1 * 60 + (deactivationTime h m).2 = (h * 60 + m + 1) % 1440
    ∧ (deactivationTime h m).1 < 24 ∧ (deactivationTime h m).2 < 60
    ∧ deactivationTime h m = formatTime h (m + 1) := by
  rw [deactivationTime_def, formatTime_def]
  by_cases hc : 60 ≤ m + 1 <;> simp only [hc, if_pos, if_neg, not_false_iff, Prod.mk.injEq] <;>
    refine ⟨by omega, by omega, by omega, by omega, by omega⟩

/-- Witness for C8: the rollover example `23:59 → 00:00`. -/
theorem claim_c8_witness :
    deactivationTime 23 59 = (0, 0)
    ∧ (deactivationTime 23 59).1 * 60 + (deactivationTime 23 59).2 = (23 * 60 + 59 + 1) % 1440 :=
  ⟨by decide, (claim_c8 23 59 (by norm_num) (by norm_num)).1⟩

theorem map_deactivate_of_no_active (now : ℕ) (users : List User)
    (h : ∀ u ∈ users, u.aiStatus = false) :
    users.map (fun u =>
        if u.aiStatus then
          { u with aiStatus := false, transactions := u.transactions ++ [deactivationTxn now] }
        else u) = users := by
  induction users with
  | nil => rfl
  | cons x xs ih =>
    simp only [List.map_cons, h x (List.mem_cons_self _ _), Bool.false_eq_true, if_false,
      List.cons.injEq, true_and]
    exact ih (fun u hu => h u (List.mem_cons_of_mem _ hu))

/-- C6: after one deactivation run every account whose participation
flag was true has it false and gained exactly one `system`-kind,
amount-0 ledger entry; accounts whose flag was already false are
returned unmodified; the reported count is the number of previously
participating accounts. -/
theorem claim_c6 (now : ℕ) (users : List User) :
    (deactivateAllAIStatus now users).1 = users.map (fun u =>
        if u.aiStatus then
          { u with aiStatus := false, transactions := u.transactions ++ [deactivationTxn now] }
        else u)
    ∧ (deactivateAllAIStatus now users).2 = (users.filter (fun u => u.aiStatus)).length := by
  have hdef : deactivateAllAIStatus now users =
      (if (users.filter (fun u => u.aiStatus)).length = 0 then (users, 0)
       else (users.map (fun u =>
              if u.aiStatus then
                { u with aiStatus := false, transactions := u.transactions ++ [deactivationTxn now] }
              else u),
             (users.filter (fun u => u.aiStatus)).length)) := rfl
  rw [hdef]
  by_cases hlen : (users.filter (fun u => u.aiStatus)).length = 0
  · rw [if_pos hlen]
    have hnil : users.filter (fun u => u.aiStatus) = [] := List.length_eq_zero.mp hlen
    have hall : ∀ u ∈ users, u.aiStatus = false := by
      intro u hu
      have := List.filter_eq_nil_iff.mp hnil u hu
      simpa using this
    exact ⟨(map_deactivate_of_no_active now users hall).symm, hlen.symm⟩
  · rw [if_neg hlen]
    exact ⟨rfl, rfl⟩

/-- C4: a failing per-account store update is caught and only that
account is skipped.  The resulting store maps each participating
account either to itself (when its id is in the failing set) or to
its normal settlement result, independently of the other accounts;
and `usersUpdated` over the cycle equals `usersUpdated` of a clean
cycle run on just the non-failing accounts, so failed accounts are
excluded from the count. -/
theorem claim_c4 (lookup : LookupResult) (now : ℕ) (failing : List ℕ) (users : List User) :
    (updateActiveUsersBalance lookup now failing users).1 = users.map (fun u =>
        if u.id ∈ failing then u
        else if u.aiStatus then (settleStep lookup now u).1 else u)
    ∧ (updateActiveUsersBalance lookup now failing users).2.1 =
        (updateActiveUsersBalance lookup now []
          (users.filter (fun u => !(decide (u.id ∈ failing))))).2.1 := by
  induction users with
  | nil => exact ⟨rfl, rfl⟩
  | cons u rest ih =>
    obtain ⟨ih1, ih2⟩ := ih
    by_cases ha : u.aiStatus <;> by_cases hf : u.id ∈ failing <;>
      simp [updateActiveUsersBalance, List.filter_cons, ha, hf, ih1, ih2]

/-- C9 (amended): a schedule update whose time string fails the
`HH:mm` regex, or whose provided `marketOffDays` contain an entry
below 0 or above 6, returns `success = false` and leaves the state —
persisted settings and armed jobs alike — unchanged.  (Integrality of
the entries is not checked; see the counterexample.) -/
theorem claim_c9 (st : CronState) (time : List Char) (tz : String) (days : Option (List ℚ)) :
    (validTimeFormat time = false → updateCronSchedule st time tz days = (st, false))
    ∧ (∀ ds, days = some ds → (∃ d ∈ ds, d < 0 ∨ 6 < d) →
        updateCronSchedule st time tz days = (st, false)) := by
  constructor
  · intro h
    unfold updateCronSchedule
    rw [if_pos h]
  · rintro ds rfl ⟨d, hd, hbad⟩
    unfold updateCronSchedule
    by_cases hv : validTimeFormat time = false
    · rw [if_pos hv]
    · rw [if_neg hv, if_pos]
      have hdfil : d ∈ ds.filter (fun d => decide (d < 0) || decide (6 < d)) := by
        refine List.mem_filter.mpr ⟨hd, ?_⟩
        rcases hbad with h1 | h1 <;> simp [h1]
      have hne : ds.filter (fun d => decide (d < 0) || decide (6 < d)) ≠ [] :=
        List.ne_nil_of_mem hdfil
      simp [invalidDaysCheck, hne]

/-- Concrete scheduler state for the C9 counterexample and witness. -/
def c9DemoState : CronState :=
  { settings := { cronScheduleTime := ['0', '6', ':', '0', '0'], timeZone := "Asia/Dhaka",
                  marketOffDays := [0, 6] }
    armedSettlement := (6, 0)
    armedDeactivation := (6, 1)
    timeZone := "Asia/Dhaka"
    marketOffDays := [0, 6] }

/-- Counterexample to C9 as stated: the entry `5/2` is not an integer,
yet the update succeeds and mutates the persisted configuration, so a
non-integer in-range `marketOffDays` entry is not rejected. -/
theorem claim_c9_cex :
    (¬ ∃ n : ℤ, ((5 : ℚ) / 2) = (n : ℚ))
    ∧ (updateCronSchedule c9DemoState ['0', '7', ':', '3', '0'] "UTC" (some [5 / 2])).2 = true
    ∧ (updateCronSchedule c9DemoState ['0', '7', ':', '3', '0'] "UTC"
        (some [5 / 2])).1.marketOffDays = [5 / 2]
    ∧ c9DemoState.marketOffDays ≠ [5 / 2] := by
  have hvt : validTimeFormat ['0', '7', ':', '3', '0'] = true := by decide
  have hic : invalidDaysCheck (some [(5 : ℚ) / 2]) = false := by
    have h1 : ¬ ((5 : ℚ) / 2 < 0) := by norm_num
    have h2 : ¬ ((6 : ℚ) < 5 / 2) := by norm_num
    simp [invalidDaysCheck, h1, h2]
  refine ⟨?_, ?_, ?_, ?_⟩
  · rintro ⟨n, hn⟩
    have h5 : (5 : ℚ) = (n : ℚ) * 2 := by
      field_simp at hn
      linarith
    have : (5 : ℤ) = n * 2 := by exact_mod_cast h5
    omega
  · simp [updateCronSchedule, hvt, hic]
  · simp [updateCronSchedule, hvt, hic]
  · intro h
    have h0 : (0 : ℚ) = 5 / 2 := by
      have := congrArg (fun l => l.headD 0) h
      simpa [c9DemoState] using this
    norm_num at h0

/-- Witness for C9 (amended): the malformed time `25:00` is rejected
with no state change. -/
theorem claim_c9_witness :
    updateCronSchedule c9DemoState ['2', '5', ':', '0', '0'] "UTC" none = (c9DemoState, false) :=
  (claim_c9 c9DemoState ['2', '5', ':', '0', '0'] "UTC" none).1 (by decide)

/-- Existing table for the C3 failing input: one active rule covering
balances 0–100. -/
def c3DemoTable : List ProfitRule :=
  [{ id := 0, minBalance := 0, maxBalance := 100, profit := 5, isActive := true }]

/-- C3 (code_bug): the schema comment says the unique index on
`(minBalance, maxBalance)` prevents overlapping balance ranges, but it
only rejects exact duplicates.  Creating `{min:50, max:150}` next to
the active rule `{min:0, max:100}` succeeds and yields two distinct
active rules whose ranges overlap (both match balance 75) — the claim
requires this create to fail with a conflict and leave the table
unchanged.  Only the exact duplicate `{min:0, max:100}` is rejected. -/
theorem claim_c3_bug :
    (createRule c3DemoTable 1 50 150 7 true).2 = CreateResult.created
    ∧ (createRule c3DemoTable 1 50 150 7 true).1 =
        c3DemoTable ++
          [{ id := 1, minBalance := 50, maxBalance := 150, profit := 7, isActive := true }]
    ∧ (∀ r ∈ (createRule c3DemoTable 1 50 150 7 true).1,
        r.isActive = true ∧ ruleMatches 75 r = true)
    ∧ (createRule c3DemoTable 2 0 100 9 true).2 = CreateResult.duplicateRange := by
  exact ⟨by decide, by decide, by decide, by decide⟩
